import Mathlib

/-!
Shallow embedding of `src/xor/xor_tutorial.ipynb`, an XOR neural-network
tutorial notebook.  Implemented cells (`generate_data`, `sigmoid`,
`binary_xentropy`, the assertion in `shuffle_and_batch`, `predict`) are
translated directly; cells whose bodies the notebook leaves as learner
exercises (`get_parameters`, `feedforward`, `backprop`, `SGD`, `train`) are
modelled from the spec, as marked on each definition.
-/

namespace XorTutorial

/-- From source `generate_data`: the four fixed bit-pairs and their XOR
labels, returned as the constant pair of tables. -/
def generate_data : List (List ℤ) × List (List ℤ) :=
  ([[1, 0], [0, 1], [0, 0], [1, 1]], [[1], [1], [0], [0]])

/-- The XOR of two bits, used to state that each label of `generate_data`
is the XOR of its bit-pair. -/
def xorBit (a b : ℤ) : ℤ := if a = b then 0 else 1

/-- From source `shuffle_and_batch`: asserts `batch_size <= len(X)` and then
returns `None` (the body after the assertion is only a comment, so the
function falls through with no `return`).  `Except.error` models the raised
`AssertionError`; Python `None` is modelled as `none` in the announced
generator-of-batches result type. -/
def shuffle_and_batch {α β : Type} (X : List α) (Y : List β) (batch_size : ℕ) :
    Except String (Option (List (List α × List β))) :=
  if batch_size ≤ X.length then Except.ok none else Except.error "AssertionError"

noncomputable section

/-- From source `sigmoid`: returns `1 / (1 + np.exp(-x))`; the `deriv` flag
is accepted but the body ignores it. -/
def sigmoid (x : ℝ) (deriv : Bool) : ℝ := 1 / (1 + Real.exp (-x))

/-- Numpy `log` on nonnegative reals: `-∞` at `0` (as numpy `log(0)`), the
real logarithm on positive reals.  (Numpy `log` of a negative number is NaN;
no input considered here reaches that case.) -/
def nplog (x : ℝ) : EReal := if x = 0 then (⊥ : EReal) else ((Real.log x : ℝ) : EReal)

/-- From source `binary_xentropy`:
`-(target * np.log(p) + (1 - target) * np.log(1 - p))`; the `deriv` flag is
accepted but the body ignores it.  Values are extended reals so that the
infinite result of a logarithm of zero is representable. -/
def binary_xentropy (target p : ℝ) (deriv : Bool) : EReal :=
  -((target : ℝ) * nplog p + ((1 - target : ℝ)) * nplog (1 - p))

/-- Modelled from the spec: the parameters of the two-layer sigmoid network,
"weight matrices and bias vectors, one pair per layer" (the body of
`get_parameters` is an unimplemented stub).  `d`, `h`, `k` are the input,
hidden and output widths. -/
structure Params (d h k : ℕ) where
  w1 : Matrix (Fin d) (Fin h) ℝ
  b1 : Fin h → ℝ
  w2 : Matrix (Fin h) (Fin k) ℝ
  b2 : Fin k → ℝ

/-- Row-broadcast addition of a bias vector, as in numpy `a @ w + b`. -/
def addBias {n h : ℕ} (z : Matrix (Fin n) (Fin h) ℝ) (b : Fin h → ℝ) :
    Matrix (Fin n) (Fin h) ℝ :=
  Matrix.of fun i j => z i j + b j

/-- Elementwise (Hadamard) product, numpy elementwise `*`. -/
def hadamard {n h : ℕ} (a b : Matrix (Fin n) (Fin h) ℝ) :
    Matrix (Fin n) (Fin h) ℝ :=
  Matrix.of fun i j => a i j * b i j

/-- Modelled from the spec: the mathematical derivative of the sigmoid,
sigma(z) * (1 - sigma(z)), the "sigmoid derivative" of the backward pass. -/
def dsigmoid (x : ℝ) : ℝ := sigmoid x false * (1 - sigmoid x false)

/-- The forward-pass data of `feedforward`: the pre-activations `zs` and the
`activations` of the two layers (the notebook `d_activations` are
recoverable as `Matrix.map` of `dsigmoid` over the pre-activations). -/
structure Forward (n h k : ℕ) where
  z1 : Matrix (Fin n) (Fin h) ℝ
  a1 : Matrix (Fin n) (Fin h) ℝ
  z2 : Matrix (Fin n) (Fin k) ℝ
  a2 : Matrix (Fin n) (Fin k) ℝ

/-- Modelled from the spec: `feedforward`, "compute forward activations" by
`z = a @ w + b` then `a = sigmoid z` at each layer (the notebook body is a
stub). -/
def feedforward {n d h k : ℕ} (x : Matrix (Fin n) (Fin d) ℝ)
    (p : Params d h k) : Forward n h k :=
  let z1 := addBias (x * p.w1) p.b1
  let a1 := z1.map fun t => sigmoid t false
  let z2 := addBias (a1 * p.w2) p.b2
  let a2 := z2.map fun t => sigmoid t false
  ⟨z1, a1, z2, a2⟩

/-- Modelled from the spec: the partial derivative of binary cross-entropy
with respect to the prediction, -(t/p) + (1-t)/(1-p), the "loss gradient"
of the output-error equation. -/
def bce_deriv (t p : ℝ) : ℝ := -(t / p) + (1 - t) / (1 - p)

/-- The loss gradient applied entrywise to labels and predictions. -/
def lossGrad {n k : ℕ} (y p : Matrix (Fin n) (Fin k) ℝ) :
    Matrix (Fin n) (Fin k) ℝ :=
  Matrix.of fun i j => bce_deriv (y i j) (p i j)

/-- Column sums of a matrix: the accumulation of the per-sample bias
gradients over the batch. -/
def colSum {n h : ℕ} (m : Matrix (Fin n) (Fin h) ℝ) : Fin h → ℝ :=
  fun j => ∑ i, m i j

/-- The per-layer gradients returned by `backprop`. -/
structure Grads (d h k : ℕ) where
  gw1 : Matrix (Fin d) (Fin h) ℝ
  gb1 : Fin h → ℝ
  gw2 : Matrix (Fin h) (Fin k) ℝ
  gb2 : Fin k → ℝ

/-- Modelled from the spec: `backprop`, "compute forward activations, compute
output error, propagate error backward layer by layer via the transposed
weight matrix and the sigmoid derivative, accumulate per-layer weight/bias
gradients" (the notebook body is a stub). -/
def backprop {n d h k : ℕ} (x : Matrix (Fin n) (Fin d) ℝ)
    (y : Matrix (Fin n) (Fin k) ℝ) (p : Params d h k) : Grads d h k :=
  let f := feedforward x p
  let delta2 := hadamard (lossGrad y f.a2) (f.z2.map dsigmoid)
  let delta1 := hadamard (delta2 * p.w2.transpose) (f.z1.map dsigmoid)
  ⟨x.transpose * delta1, colSum delta1, f.a1.transpose * delta2, colSum delta2⟩

/-- Modelled from the spec: one SGD parameter update,
`W := W - lr * gradW` and `b := b - lr * gradb` at each layer (the notebook
`SGD` body is a stub; with `batch_size` equal to the dataset size the single
mini-batch is the whole dataset, so the shuffle does not affect the update). -/
def sgd_step {n d h k : ℕ} (x : Matrix (Fin n) (Fin d) ℝ)
    (y : Matrix (Fin n) (Fin k) ℝ) (lr : ℝ) (p : Params d h k) :
    Params d h k :=
  let g := backprop x y p
  ⟨p.w1 - lr • g.gw1, p.b1 - lr • g.gb1, p.w2 - lr • g.gw2, p.b2 - lr • g.gb2⟩

/-- Modelled from the spec: the binary cross-entropy loss of the network on
the whole dataset, the per-epoch value recorded by `train`. -/
def totalLoss {n d h k : ℕ} (x : Matrix (Fin n) (Fin d) ℝ)
    (y : Matrix (Fin n) (Fin k) ℝ) (p : Params d h k) : EReal :=
  ∑ i, ∑ j, binary_xentropy (y i j) ((feedforward x p).a2 i j) false

/-- Modelled from the spec: `train`, per epoch one full-batch SGD pass
followed by a loss evaluation; it returns the recorded losses and the final
parameters (the notebook body is a stub; the console printing is omitted). -/
def train {n d h k : ℕ} (x : Matrix (Fin n) (Fin d) ℝ)
    (y : Matrix (Fin n) (Fin k) ℝ) (p : Params d h k) (epochs : ℕ) (lr : ℝ) :
    List EReal × Params d h k :=
  match epochs with
  | 0 => ([], p)
  | Nat.succ e =>
    let q := sgd_step x y lr p
    let rest := train x y q e lr
    (totalLoss x y q :: rest.1, rest.2)

/-- From source `predict`: the final-layer activations of `feedforward` on
the dataset rows, which the notebook prints as the truth-table predictions. -/
def predict {n d h k : ℕ} (x : Matrix (Fin n) (Fin d) ℝ) (p : Params d h k) :
    Matrix (Fin n) (Fin k) ℝ :=
  (feedforward x p).a2

/-- Modelled from the spec: `get_parameters`, "weights for the XOR network
sampled from the normal distribution", one weight matrix and one bias vector
per layer, each entry a fresh draw from the stream `rng` of
normally-distributed samples (the notebook body is a stub). -/
def get_parameters (d h k : ℕ) (rng : ℕ → ℝ) : Params d h k where
  w1 := Matrix.of fun i j => rng (i.val * h + j.val)
  b1 := fun j => rng (d * h + j.val)
  w2 := Matrix.of fun i j => rng (d * h + h + i.val * k + j.val)
  b2 := fun j => rng (d * h + h + h * k + j.val)

/-- The XOR bit-pairs of `generate_data` as a real input matrix. -/
def xorX : Matrix (Fin 4) (Fin 2) ℝ := !![1, 0; 0, 1; 0, 0; 1, 1]

/-- The XOR labels of `generate_data` as a real label matrix. -/
def xorY : Matrix (Fin 4) (Fin 1) ℝ := !![1; 1; 0; 0]

/-- All-zero parameters of the 2-2-1 XOR network, a degenerate but valid
initialization used as a concrete run of `train`. -/
def zeroParams : Params 2 2 1 := ⟨0, 0, 0, 0⟩

/-- Reference output-layer error of claim C1: the loss gradient
elementwise-multiplied by the sigmoid derivative of the output
pre-activation. -/
def refOutputError {n d h k : ℕ} (x : Matrix (Fin n) (Fin d) ℝ)
    (y : Matrix (Fin n) (Fin k) ℝ) (p : Params d h k) :
    Matrix (Fin n) (Fin k) ℝ :=
  hadamard (lossGrad y (feedforward x p).a2) ((feedforward x p).z2.map dsigmoid)

/-- Reference hidden-layer error of claim C1: the next layer error times the
transposed next-layer weight matrix, elementwise-multiplied by the sigmoid
derivative of the hidden pre-activation. -/
def refHiddenError {n d h k : ℕ} (x : Matrix (Fin n) (Fin d) ℝ)
    (y : Matrix (Fin n) (Fin k) ℝ) (p : Params d h k) :
    Matrix (Fin n) (Fin h) ℝ :=
  hadamard (refOutputError x y p * p.w2.transpose) ((feedforward x p).z1.map dsigmoid)

/-- The loss recorded for epoch `i` of a run of `train` (junk value 0 past
the end of the run). -/
def lossAt {n d h k : ℕ} (x : Matrix (Fin n) (Fin d) ℝ)
    (y : Matrix (Fin n) (Fin k) ℝ) (p : Params d h k) (epochs : ℕ) (lr : ℝ)
    (i : ℕ) : EReal :=
  ((train x y p epochs lr).1).getD i 0

/-- The statement of claim C4 as written: on the XOR dataset, every run of
`train` records strictly decreasing per-epoch losses. -/
def lossesStrictlyDecrease : Prop :=
  ∀ (p : Params 2 2 1) (epochs : ℕ) (lr : ℝ) (i j : ℕ),
    i < j → j < epochs →
      lossAt xorX xorY p epochs lr j < lossAt xorX xorY p epochs lr i

/-- The statement of claim C5 as written: after every run of `train` on the
XOR dataset, the four predictions are within some classification-meaningful
tolerance (strictly below 1/2) of the XOR truth table. -/
def predictionsMatchTruthTable : Prop :=
  ∀ (p : Params 2 2 1) (epochs : ℕ) (lr : ℝ),
    ∃ tol : ℝ, tol < 1 / 2 ∧
      ∀ i : Fin 4,
        |predict xorX (train xorX xorY p epochs lr).2 i 0 - xorY i 0| ≤ tol

/-- Hand-constructed parameters of the 2-2-1 network computing XOR: the
hidden layer computes (soft) OR and NAND of the two bits, the output layer
their AND. -/
def goodParams : Params 2 2 1 :=
  ⟨!![20, -20; 20, -20], ![-10, 30], !![20; 20], ![-30]⟩

end

/-! ## Theorems -/

/-- C2: `generate_data` returns the constant four-row table of bit-pairs
[1,0],[0,1],[0,0],[1,1] with labels [1],[1],[0],[0], and each label is the
XOR of its two bits; being a pure constant function, every call returns the
same table. -/
theorem generate_data_constant_xor_table :
    generate_data =
      ([[1, 0], [0, 1], [0, 0], [1, 1]], [[1], [1], [0], [0]]) ∧
    generate_data.2 =
      generate_data.1.map fun r =>
        match r with
        | [a, b] => [xorBit a b]
        | _ => [] := by
  refine ⟨rfl, ?_⟩
  decide

/-- C3: `shuffle_and_batch` signals its `AssertionError` exactly when
`batch_size` exceeds the dataset size `len(X)`; when `batch_size ≤ len(X)`
no error is raised.  (This assertion is the only designed error in the
program: every other embedded operation is a total function.) -/
theorem shuffle_and_batch_assert_iff {α β : Type} (X : List α) (Y : List β)
    (batch_size : ℕ) :
    (∃ e, shuffle_and_batch X Y batch_size = Except.error e) ↔
      X.length < batch_size := by
  unfold shuffle_and_batch
  by_cases hb : batch_size ≤ X.length
  · simp [hb, Nat.not_lt.mpr hb]
  · simp [hb, Nat.lt_of_not_le hb]

/-- C10: when `batch_size ≤ len(X)`, `shuffle_and_batch` returns `None`
rather than a generator or sequence of mini-batches, so any caller that
iterates over its result fails. -/
theorem shuffle_and_batch_returns_none {α β : Type} (X : List α) (Y : List β)
    (batch_size : ℕ) (hb : batch_size ≤ X.length) :
    shuffle_and_batch X Y batch_size = Except.ok none := by
  simp [shuffle_and_batch, hb]

/-- Witness for C10 at the four-row XOR dataset with batch size 4. -/
theorem shuffle_and_batch_returns_none_witness :
    4 ≤ ([[1, 0], [0, 1], [0, 0], [1, 1]] : List (List ℤ)).length ∧
      shuffle_and_batch ([[1, 0], [0, 1], [0, 0], [1, 1]] : List (List ℤ))
        ([[1], [1], [0], [0]] : List (List ℤ)) 4 = Except.ok none :=
  ⟨by decide, shuffle_and_batch_returns_none _ _ 4 (by decide)⟩

lemma sigmoid_pos (x : ℝ) (d : Bool) : 0 < sigmoid x d := by
  unfold sigmoid
  positivity

lemma sigmoid_lt_one (x : ℝ) (d : Bool) : sigmoid x d < 1 := by
  unfold sigmoid
  rw [div_lt_one (by positivity)]
  have := Real.exp_pos (-x)
  linarith

/-- C8: `sigmoid x deriv` equals the logistic function 1/(1+exp(-x)) for
both values of the `deriv` flag, lies strictly between 0 and 1, and does
not depend on `deriv`. -/
theorem sigmoid_logistic (x : ℝ) (d e : Bool) :
    sigmoid x d = 1 / (1 + Real.exp (-x)) ∧
    0 < sigmoid x d ∧ sigmoid x d < 1 ∧ sigmoid x d = sigmoid x e :=
  ⟨rfl, sigmoid_pos x d, sigmoid_lt_one x d, rfl⟩

/-- C9: `binary_xentropy` applies the logarithm with no numerical-stability
safeguard: at the valid inputs target = 1, p = 0 and target = 0, p = 1 the
result is the infinite extended real `⊤`, not a finite number — the
log-of-zero branch is reachable. -/
theorem binary_xentropy_log_zero_reachable :
    binary_xentropy 1 0 false = (⊤ : EReal) ∧
      binary_xentropy 0 1 false = (⊤ : EReal) := by
  constructor <;> simp [binary_xentropy, nplog]

/-- C1: `backprop` returns exactly the reference backpropagation gradients
for binary cross-entropy: the output error is the loss gradient
elementwise-times the sigmoid derivative of the output pre-activation, the
hidden error is the output error times the transposed output weight matrix
elementwise-times the sigmoid derivative of the hidden pre-activation, each
weight gradient is the transposed previous-layer activation times that
layer error, and each bias gradient is that layer error (accumulated over
the batch rows, as the weight gradients are; for a single sample the column
sum is the error itself). -/
theorem backprop_reference {n d h k : ℕ} (x : Matrix (Fin n) (Fin d) ℝ)
    (y : Matrix (Fin n) (Fin k) ℝ) (p : Params d h k) :
    backprop x y p =
      ⟨x.transpose * refHiddenError x y p, colSum (refHiddenError x y p),
       (feedforward x p).a1.transpose * refOutputError x y p,
       colSum (refOutputError x y p)⟩ := rfl

lemma train_snd_eq_iterate {n d h k : ℕ} (x : Matrix (Fin n) (Fin d) ℝ)
    (y : Matrix (Fin n) (Fin k) ℝ) (lr : ℝ) (epochs : ℕ) (p : Params d h k) :
    (train x y p epochs lr).2 = (sgd_step x y lr)^[epochs] p := by
  induction epochs generalizing p with
  | zero => rfl
  | succ e ih =>
      rw [train]
      simpa using (ih (sgd_step x y lr p)).trans
        (Function.iterate_succ_apply (sgd_step x y lr) e p).symm

/-- C7: each training step is the SGD update `W := W - lr * gradW`,
`b := b - lr * gradb` on every layer; the run uses the one fixed `lr`
throughout — the final parameters are the `epochs`-fold iterate of that one
update — and, the state being exactly the parameters plus the recorded
losses, nothing else changes. -/
theorem train_sgd_update {n d h k : ℕ} (x : Matrix (Fin n) (Fin d) ℝ)
    (y : Matrix (Fin n) (Fin k) ℝ) (p : Params d h k) (lr : ℝ) (epochs : ℕ) :
    sgd_step x y lr p =
      ⟨p.w1 - lr • (backprop x y p).gw1, p.b1 - lr • (backprop x y p).gb1,
       p.w2 - lr • (backprop x y p).gw2, p.b2 - lr • (backprop x y p).gb2⟩ ∧
    (train x y p epochs lr).2 = (sgd_step x y lr)^[epochs] p :=
  ⟨rfl, train_snd_eq_iterate x y lr epochs p⟩

/-- C6: `get_parameters` yields one weight matrix and one bias vector per
layer of the two-layer network, every entry a fresh sample from the normal
stream `rng` (the four blocks read pairwise disjoint positions of the
stream), and the parameters are initialized exactly once: training never
resamples, the parameters after `train` being obtained from the initial
ones purely by iterating the SGD update. -/
theorem get_parameters_spec {m : ℕ} (d h k : ℕ) (rng : ℕ → ℝ)
    (x : Matrix (Fin m) (Fin d) ℝ) (y : Matrix (Fin m) (Fin k) ℝ)
    (epochs : ℕ) (lr : ℝ) :
    (∀ i j, (get_parameters d h k rng).w1 i j = rng (i.val * h + j.val)) ∧
    (∀ j, (get_parameters d h k rng).b1 j = rng (d * h + j.val)) ∧
    (∀ i j, (get_parameters d h k rng).w2 i j =
      rng (d * h + h + i.val * k + j.val)) ∧
    (∀ j, (get_parameters d h k rng).b2 j = rng (d * h + h + h * k + j.val)) ∧
    (train x y (get_parameters d h k rng) epochs lr).2 =
      (sgd_step x y lr)^[epochs] (get_parameters d h k rng) :=
  ⟨fun _ _ => rfl, fun _ => rfl, fun _ _ => rfl, fun _ => rfl,
    train_snd_eq_iterate x y lr epochs (get_parameters d h k rng)⟩

lemma sgd_step_zero_lr {n d h k : ℕ} (x : Matrix (Fin n) (Fin d) ℝ)
    (y : Matrix (Fin n) (Fin k) ℝ) (p : Params d h k) :
    sgd_step x y 0 p = p := by
  simp [sgd_step]

lemma train_zero_lr_losses {n d h k : ℕ} (x : Matrix (Fin n) (Fin d) ℝ)
    (y : Matrix (Fin n) (Fin k) ℝ) (p : Params d h k) (epochs : ℕ) :
    (train x y p epochs 0).1 = List.replicate epochs (totalLoss x y p) := by
  induction epochs with
  | zero => rfl
  | succ e ih =>
      rw [train, sgd_step_zero_lr, ih, List.replicate_succ]

/-- C4 counterexample: the claim that every run has strictly decreasing
per-epoch losses is false — in the run with zero initial parameters,
learning rate 0 and two epochs, the two recorded losses are equal. -/
theorem losses_not_strictly_decreasing : ¬ lossesStrictlyDecrease := by
  intro hcl
  have h := hcl zeroParams 2 0 0 1 (by norm_num) (by norm_num)
  have e0 : lossAt xorX xorY zeroParams 2 0 0 =
      totalLoss xorX xorY zeroParams := by
    rw [lossAt, train_zero_lr_losses]
    rfl
  have e1 : lossAt xorX xorY zeroParams 2 0 1 =
      totalLoss xorX xorY zeroParams := by
    rw [lossAt, train_zero_lr_losses]
    rfl
  rw [e0, e1] at h
  exact lt_irrefl _ h

/-- C4 amended: the per-epoch losses need not decrease over every run: they
are determined by the iterated SGD update, and in any run with learning
rate 0 every epoch records the same loss — the loss list is constant. -/
theorem train_losses_constant_at_zero_lr {n d h k : ℕ}
    (x : Matrix (Fin n) (Fin d) ℝ) (y : Matrix (Fin n) (Fin k) ℝ)
    (p : Params d h k) (epochs : ℕ) :
    (train x y p epochs 0).1 = List.replicate epochs (totalLoss x y p) :=
  train_zero_lr_losses x y p epochs

lemma exp_one_gt : (27 / 10 : ℝ) < Real.exp 1 := by
  have h := Real.exp_one_gt_d9
  have h2 : (27 / 10 : ℝ) < 2.7182818283 := by norm_num
  linarith

lemma exp_three_gt : (9 : ℝ) < Real.exp 3 := by
  have h1 : Real.exp 3 = Real.exp 1 ^ (3 : ℕ) := by
    rw [← Real.exp_nat_mul]
    norm_num
  have h2 : (27 / 10 : ℝ) ^ (3 : ℕ) < Real.exp 1 ^ (3 : ℕ) :=
    pow_lt_pow_left₀ exp_one_gt (by norm_num) (by norm_num)
  have h3 : ((27 / 10 : ℝ)) ^ (3 : ℕ) = 19683 / 1000 := by norm_num
  rw [h1]
  linarith

lemma exp_ten_gt : (99 : ℝ) < Real.exp 10 := by
  have h1 : Real.exp 10 = Real.exp 1 ^ (10 : ℕ) := by
    rw [← Real.exp_nat_mul]
    norm_num
  have e1 : (2 : ℝ) < Real.exp 1 := by
    have := exp_one_gt
    linarith
  have h2 : (2 : ℝ) ^ (10 : ℕ) < Real.exp 1 ^ (10 : ℕ) :=
    pow_lt_pow_left₀ e1 (by norm_num) (by norm_num)
  rw [h1]
  have h3 : ((2 : ℝ)) ^ (10 : ℕ) = 1024 := by norm_num
  linarith

lemma sigmoid_gt_nine_tenths {z : ℝ} (hz : 3 ≤ z) (d : Bool) :
    (9 / 10 : ℝ) < sigmoid z d := by
  unfold sigmoid
  have hexp : Real.exp (-z) ≤ Real.exp (-3) := Real.exp_le_exp.mpr (by linarith)
  have h3 : Real.exp (-3) < 1 / 9 := by
    rw [Real.exp_neg]
    have h9 := exp_three_gt
    have hpos : (0 : ℝ) < Real.exp 3 := Real.exp_pos 3
    rw [inv_lt_comm₀ hpos (by norm_num)]
    linarith
  have hd : (0 : ℝ) < 1 + Real.exp (-z) := by positivity
  rw [lt_div_iff₀ hd]
  linarith

lemma sigmoid_lt_tenth {z : ℝ} (hz : z ≤ -3) (d : Bool) :
    sigmoid z d < 1 / 10 := by
  unfold sigmoid
  have hexp : Real.exp 3 ≤ Real.exp (-z) := Real.exp_le_exp.mpr (by linarith)
  have h9 := exp_three_gt
  have hd : (0 : ℝ) < 1 + Real.exp (-z) := by positivity
  rw [div_lt_div_iff₀ hd (by norm_num : (0 : ℝ) < 10)]
  linarith

lemma sigmoid_gt_99 {z : ℝ} (hz : 10 ≤ z) (d : Bool) :
    (99 / 100 : ℝ) < sigmoid z d := by
  unfold sigmoid
  have hexp : Real.exp (-z) ≤ Real.exp (-10) := Real.exp_le_exp.mpr (by linarith)
  have h3 : Real.exp (-10) < 1 / 99 := by
    rw [Real.exp_neg]
    have h9 := exp_ten_gt
    have hpos : (0 : ℝ) < Real.exp 10 := Real.exp_pos 10
    rw [inv_lt_comm₀ hpos (by norm_num)]
    linarith
  have hd : (0 : ℝ) < 1 + Real.exp (-z) := by positivity
  rw [lt_div_iff₀ hd]
  linarith

lemma sigmoid_lt_hundredth {z : ℝ} (hz : z ≤ -10) (d : Bool) :
    sigmoid z d < 1 / 100 := by
  unfold sigmoid
  have hexp : Real.exp 10 ≤ Real.exp (-z) := Real.exp_le_exp.mpr (by linarith)
  have h9 := exp_ten_gt
  have hd : (0 : ℝ) < 1 + Real.exp (-z) := by positivity
  rw [div_lt_div_iff₀ hd (by norm_num : (0 : ℝ) < 100)]
  linarith

lemma predict_zeroParams (i : Fin 4) : predict xorX zeroParams i 0 = 1 / 2 := by
  simp [predict, feedforward, addBias, zeroParams, sigmoid, Matrix.map_apply,
    Matrix.of_apply]
  norm_num [Real.exp_zero]

/-- C5 counterexample: the claim that after every run of `train` the
predictions are within tolerance of the XOR truth table is false — in the
run with zero initial parameters and learning rate 0 every prediction is
exactly 1/2, at distance 1/2 from the label 1 of input [1,0]. -/
theorem predictions_not_always_close : ¬ predictionsMatchTruthTable := by
  intro hcl
  obtain ⟨tol, htol, hall⟩ := hcl zeroParams 1 0
  have hfix : (train xorX xorY zeroParams 1 0).2 = zeroParams := by
    rw [train_snd_eq_iterate]
    exact Function.iterate_fixed (sgd_step_zero_lr xorX xorY zeroParams) 1
  have h0 := hall 0
  rw [hfix, predict_zeroParams 0] at h0
  have hy : xorY 0 0 = 1 := rfl
  rw [hy] at h0
  have habs : |(1 / 2 : ℝ) - 1| = 1 / 2 := by
    rw [abs_of_neg (by norm_num : (1 / 2 : ℝ) - 1 < 0)]
    norm_num
  rw [habs] at h0
  linarith

lemma predict_eq {n d h k : ℕ} (x : Matrix (Fin n) (Fin d) ℝ)
    (p : Params d h k) (i : Fin n) (j : Fin k) :
    predict x p i j = sigmoid ((feedforward x p).z2 i j) false := rfl

lemma z1_entry {n d h k : ℕ} (x : Matrix (Fin n) (Fin d) ℝ)
    (p : Params d h k) (i : Fin n) (j : Fin h) :
    (feedforward x p).z1 i j = (∑ l, x i l * p.w1 l j) + p.b1 j := rfl

lemma z2_entry {n d h k : ℕ} (x : Matrix (Fin n) (Fin d) ℝ)
    (p : Params d h k) (i : Fin n) (j : Fin k) :
    (feedforward x p).z2 i j =
      (∑ l, sigmoid ((feedforward x p).z1 i l) false * p.w2 l j) + p.b2 j := rfl

lemma abs_bound_hi {p : ℝ} (h1 : 9 / 10 < p) (h2 : p < 1) :
    |p - 1| ≤ 1 / 10 := by
  rw [abs_of_neg (by linarith : p - 1 < 0)]
  linarith

lemma abs_bound_lo {p : ℝ} (h1 : 0 < p) (h2 : p < 1 / 10) :
    |p - 0| ≤ 1 / 10 := by
  rw [sub_zero, abs_of_pos h1]
  linarith

lemma good_row0 : |predict xorX goodParams 0 0 - xorY 0 0| ≤ 1 / 10 := by
  have ha : (feedforward xorX goodParams).z1 0 0 = 10 := by
    rw [z1_entry, Fin.sum_univ_two]
    show (1 : ℝ) * 20 + 0 * 20 + -10 = 10
    norm_num
  have hb : (feedforward xorX goodParams).z1 0 1 = 10 := by
    rw [z1_entry, Fin.sum_univ_two]
    show (1 : ℝ) * -20 + 0 * -20 + 30 = 10
    norm_num
  have hs1 : (99 / 100 : ℝ) < sigmoid 10 false := sigmoid_gt_99 (by norm_num) false
  have hs2 : sigmoid 10 false < 1 := sigmoid_lt_one 10 false
  have h3 : (3 : ℝ) ≤ (feedforward xorX goodParams).z2 0 0 := by
    rw [z2_entry, Fin.sum_univ_two, ha, hb]
    show (3 : ℝ) ≤ sigmoid 10 false * 20 + sigmoid 10 false * 20 + -30
    linarith
  rw [predict_eq]
  have hy : xorY 0 0 = (1 : ℝ) := rfl
  rw [hy]
  exact abs_bound_hi (sigmoid_gt_nine_tenths h3 false)
    (sigmoid_lt_one _ false)

lemma good_row1 : |predict xorX goodParams 1 0 - xorY 1 0| ≤ 1 / 10 := by
  have ha : (feedforward xorX goodParams).z1 1 0 = 10 := by
    rw [z1_entry, Fin.sum_univ_two]
    show (0 : ℝ) * 20 + 1 * 20 + -10 = 10
    norm_num
  have hb : (feedforward xorX goodParams).z1 1 1 = 10 := by
    rw [z1_entry, Fin.sum_univ_two]
    show (0 : ℝ) * -20 + 1 * -20 + 30 = 10
    norm_num
  have hs1 : (99 / 100 : ℝ) < sigmoid 10 false := sigmoid_gt_99 (by norm_num) false
  have hs2 : sigmoid 10 false < 1 := sigmoid_lt_one 10 false
  have h3 : (3 : ℝ) ≤ (feedforward xorX goodParams).z2 1 0 := by
    rw [z2_entry, Fin.sum_univ_two, ha, hb]
    show (3 : ℝ) ≤ sigmoid 10 false * 20 + sigmoid 10 false * 20 + -30
    linarith
  rw [predict_eq]
  have hy : xorY 1 0 = (1 : ℝ) := rfl
  rw [hy]
  exact abs_bound_hi (sigmoid_gt_nine_tenths h3 false)
    (sigmoid_lt_one _ false)

lemma good_row2 : |predict xorX goodParams 2 0 - xorY 2 0| ≤ 1 / 10 := by
  have ha : (feedforward xorX goodParams).z1 2 0 = -10 := by
    rw [z1_entry, Fin.sum_univ_two]
    show (0 : ℝ) * 20 + 0 * 20 + -10 = -10
    norm_num
  have hb : (feedforward xorX goodParams).z1 2 1 = 30 := by
    rw [z1_entry, Fin.sum_univ_two]
    show (0 : ℝ) * -20 + 0 * -20 + 30 = 30
    norm_num
  have hs1 : sigmoid (-10) false < 1 / 100 :=
    sigmoid_lt_hundredth (by norm_num) false
  have hs0 : (0 : ℝ) < sigmoid (-10) false := sigmoid_pos _ _
  have hs2 : sigmoid 30 false < 1 := sigmoid_lt_one 30 false
  have h3 : (feedforward xorX goodParams).z2 2 0 ≤ -3 := by
    rw [z2_entry, Fin.sum_univ_two, ha, hb]
    show sigmoid (-10) false * 20 + sigmoid 30 false * 20 + -30 ≤ (-3 : ℝ)
    linarith
  rw [predict_eq]
  have hy : xorY 2 0 = (0 : ℝ) := rfl
  rw [hy]
  exact abs_bound_lo (sigmoid_pos _ false) (sigmoid_lt_tenth h3 false)

lemma good_row3 : |predict xorX goodParams 3 0 - xorY 3 0| ≤ 1 / 10 := by
  have ha : (feedforward xorX goodParams).z1 3 0 = 30 := by
    rw [z1_entry, Fin.sum_univ_two]
    show (1 : ℝ) * 20 + 1 * 20 + -10 = 30
    norm_num
  have hb : (feedforward xorX goodParams).z1 3 1 = -10 := by
    rw [z1_entry, Fin.sum_univ_two]
    show (1 : ℝ) * -20 + 1 * -20 + 30 = -10
    norm_num
  have hs1 : sigmoid (-10) false < 1 / 100 :=
    sigmoid_lt_hundredth (by norm_num) false
  have hs0 : (0 : ℝ) < sigmoid (-10) false := sigmoid_pos _ _
  have hs2 : sigmoid 30 false < 1 := sigmoid_lt_one 30 false
  have h3 : (feedforward xorX goodParams).z2 3 0 ≤ -3 := by
    rw [z2_entry, Fin.sum_univ_two, ha, hb]
    show sigmoid 30 false * 20 + sigmoid (-10) false * 20 + -30 ≤ (-3 : ℝ)
    linarith
  rw [predict_eq]
  have hy : xorY 3 0 = (0 : ℝ) := rfl
  rw [hy]
  exact abs_bound_lo (sigmoid_pos _ false) (sigmoid_lt_tenth h3 false)

/-- C5 amended: closeness of the predictions to the XOR truth table after
`train` holds for suitable runs but not for every run: in the run starting
from the explicit XOR-realizing parameters `goodParams` with learning rate
0 (which `train` leaves in place), every prediction is within 1/10 of the
truth table — above 9/10 for inputs [1,0] and [0,1], below 1/10 for inputs
[0,0] and [1,1]. -/
theorem predictions_close_for_good_run (epochs : ℕ) (i : Fin 4) :
    |predict xorX (train xorX xorY goodParams epochs 0).2 i 0 - xorY i 0| ≤
      1 / 10 := by
  have hfix : (train xorX xorY goodParams epochs 0).2 = goodParams := by
    rw [train_snd_eq_iterate]
    exact Function.iterate_fixed (sgd_step_zero_lr xorX xorY goodParams) epochs
  rw [hfix]
  fin_cases i
  · exact good_row0
  · exact good_row1
  · exact good_row2
  · exact good_row3

end XorTutorial
